import Mathlib

/- Verification of the starting-equipment choice parser found in
src/pages/Build_Your_Character.py (the loop over
class_json["starting_equipment_options"], lines 158-183).

Strings are modelled as lists of characters.  The Python operations used by
the loop are modelled faithfully:
  * `s[4:]`            —  List.drop 4
  * `s.split(sep)`     —  pySplit (greedy left-to-right split, non-empty sep)
  * `sep in s`         —  the substring relation  sep <:+: s
  * `s[0:-15]`         —  List.take (s.length - 15)
  * `s.title()`        —  pyTitle (ASCII text, as in all equipment data)
The uncaught IndexError that `choices[1]` raises when the split on ", (b) "
yields a single piece is modelled by returning `none`. -/

/-- Prepend a character to the first piece of a split result. -/
def consHead (c : Char) : List (List Char) → List (List Char)
  | [] => [[c]]
  | h :: t => (c :: h) :: t

/-- Fuelled greedy left-to-right splitter; with enough fuel this is Python
str.split for a non-empty separator. -/
def splitStep (sep : List Char) : Nat → List Char → List (List Char)
  | 0, s => [s]
  | fuel + 1, s =>
    if sep <+: s then
      [] :: splitStep sep fuel (s.drop sep.length)
    else
      match s with
      | [] => [[]]
      | c :: s2 => consHead c (splitStep sep fuel s2)

/-- Python `s.split(sep)` for a non-empty separator `sep`. -/
def pySplit (sep s : List Char) : List (List Char) :=
  splitStep sep (s.length + 1) s

/-- The number of positions of `s` at which the separator `sep` occurs. -/
def occCount (sep s : List Char) : Nat :=
  ((List.range (s.length + 1)).filter (fun i => decide (sep <+: s.drop i))).length

/-- The leading marker dropped by `item["desc"][4:]`. -/
def markerA : List Char := ("(a) ").toList

/-- The marker of a second alternative. -/
def markerB : List Char := ("(b) ").toList

/-- The marker of a third alternative. -/
def markerC : List Char := ("(c) ").toList

/-- The containment test of line 160: `" or (c)" in item["desc"]`. -/
def sepOrC : List Char := (" or (c)").toList

/-- The separator of line 161: `.split(", (b) ")`. -/
def sepCommaB : List Char := (", (b) ").toList

/-- The separator of line 162: `.split(", or (c) ")`. -/
def sepCommaOrC : List Char := (", or (c) ").toList

/-- The separator of line 170: `.split(" or (b) ")`. -/
def sepOrB : List Char := (" or (b) ").toList

/-- The conditional annotation of line 178: `"(if proficient)"`. -/
def ifProf : List Char := ("(if proficient)").toList

/-- One pass of Python `str.title()` on ASCII text: an alphabetic character
is uppercased after a non-alphabetic character (or at the start) and
lowercased after an alphabetic one; other characters are kept. -/
def pyTitleGo : Bool → List Char → List Char
  | _, [] => []
  | prevAlpha, c :: rest =>
    if c.isAlpha then
      (if prevAlpha then c.toLower else c.toUpper) :: pyTitleGo true rest
    else
      c :: pyTitleGo false rest

/-- Python `s.title()` (line 173/174). -/
def pyTitle (s : List Char) : List Char := pyTitleGo false s

/-- Lines 177-179: if `"(if proficient)" in choices[i]` then
`choices[i] = choices[i][0:-15]`.  Note the containment test. -/
def ifProfStrip (o : List Char) : List Char :=
  if ifProf <:+: o then o.take (o.length - 15) else o

/-- Lines 172-179: a single-piece split result becomes the title-cased full
description (the Pattern C path, lines 173-175); otherwise every piece goes
through the annotation strip of lines 177-179. -/
def finishChoices (desc : List Char) (choices : List (List Char)) : List (List Char) :=
  if choices.length = 1 then [pyTitle desc] else choices.map ifProfStrip

/-- The starting-equipment choice parser, lines 160-179, for one value of
`item["desc"]`.  Line 160 tests `" or (c)" in desc` on the full string;
line 161 splits `desc[4:]` on `", (b) "`; line 162 reads `choices[1]`
(IndexError — `none` — when the split has a single piece) and splits it on
`", or (c) "`; lines 163-165 delete `choices[1]` and append the pieces, so
the list becomes `c0 :: rest ++ choices1`.  Otherwise line 170 splits
`desc[4:]` on `" or (b) "`. -/
def starting_equipment_options (desc : List Char) : Option (List (List Char)) :=
  if sepOrC <:+: desc then
    match pySplit sepCommaB (desc.drop 4) with
    | c0 :: c1 :: rest =>
        some (finishChoices desc ((c0 :: rest) ++ pySplit sepCommaOrC c1))
    | _ => none
  else
    some (finishChoices desc (pySplit sepOrB (desc.drop 4)))

/-- The mutable state the loop body touches: `starting_equipment_list`
(titles registered by the Pattern C path, line 174) and the option lists
offered to the radio widget (line 181). -/
structure EquipState where
  equipmentList : List (List Char)
  choiceLists : List (List (List Char))
deriving DecidableEq

/-- One iteration of the loop of lines 158-183 on state: the Pattern C path
appends the single title to `starting_equipment_list`; the multi-option path
records the offered option list. -/
def stepItem (st : EquipState) (d : List Char) : Option EquipState :=
  match starting_equipment_options d with
  | none => none
  | some opts =>
    if opts.length = 1 then
      some { st with equipmentList := st.equipmentList ++ opts }
    else
      some { st with choiceLists := st.choiceLists ++ [opts] }

/-- An option string that retains none of the three alternative markers. -/
def noMarker (o : List Char) : Prop :=
  ¬ markerA <+: o ∧ ¬ markerB <+: o ∧ ¬ markerC <+: o

/-- A well-formed option text: non-empty, marker-free, and carrying the
conditional annotation at most once, as a trailing suffix. -/
def WfOpt (o : List Char) : Prop :=
  ∃ u, u ≠ [] ∧ noMarker u ∧ ¬ ifProf <:+: u ∧ (o = u ∨ o = u ++ ifProf)

/-- The returned option `r` relates to the split piece `o` by the
containment-triggered truncation of lines 177-179: the final 15 characters
are removed exactly when `o` contains `"(if proficient)"` anywhere. -/
def stripSpec (o r : List Char) : Prop :=
  (ifProf <:+: o → r = o.take (o.length - 15)) ∧ (¬ ifProf <:+: o → r = o)

theorem splitStep_fuel (sep : List Char) (hsep : sep ≠ []) :
    ∀ (n f₁ f₂ : Nat) (s : List Char), s.length ≤ n → n < f₁ → n < f₂ →
      splitStep sep f₁ s = splitStep sep f₂ s := by
  intro n
  induction n with
  | zero =>
    intro f₁ f₂ s hs h1 h2
    match f₁, f₂ with
    | g₁ + 1, g₂ + 1 =>
      have hnil : s = [] := List.length_eq_zero.mp (Nat.le_zero.mp hs)
      subst hnil
      have hnp : ¬ sep <+: ([] : List Char) := fun h => hsep (List.prefix_nil.mp h)
      simp [splitStep, hnp]
  | succ n ih =>
    intro f₁ f₂ s hs h1 h2
    match f₁, f₂ with
    | g₁ + 1, g₂ + 1 =>
      match s with
      | [] =>
        have hnp : ¬ sep <+: ([] : List Char) := fun h => hsep (List.prefix_nil.mp h)
        simp [splitStep, hnp]
      | c :: s2 =>
        have hsep1 : 1 ≤ sep.length := by
          cases sep with
          | nil => exact absurd rfl hsep
          | cons a t => simp
        by_cases hp : sep <+: (c :: s2)
        · have hlen : ((c :: s2).drop sep.length).length ≤ n := by
            rw [List.length_drop]
            simp only [List.length_cons] at hs ⊢
            omega
          simp only [splitStep, if_pos hp]
          rw [ih g₁ g₂ _ hlen (by omega) (by omega)]
        · have hlen : s2.length ≤ n := by
            simp only [List.length_cons] at hs
            omega
          simp only [splitStep, if_neg hp]
          rw [ih g₁ g₂ _ hlen (by omega) (by omega)]

theorem pySplit_nil (sep : List Char) (hsep : sep ≠ []) : pySplit sep [] = [[]] := by
  have hnp : ¬ sep <+: ([] : List Char) := fun h => hsep (List.prefix_nil.mp h)
  simp [pySplit, splitStep, hnp]

theorem pySplit_pos (sep s : List Char) (hsep : sep ≠ []) (h : sep <+: s) :
    pySplit sep s = [] :: pySplit sep (s.drop sep.length) := by
  have hs : s ≠ [] := by
    intro hnil
    subst hnil
    exact hsep (List.prefix_nil.mp h)
  have hsep1 : 1 ≤ sep.length := by
    cases sep with
    | nil => exact absurd rfl hsep
    | cons a t => simp
  have hs1 : 1 ≤ s.length := by
    cases s with
    | nil => exact absurd rfl hs
    | cons a t => simp
  show splitStep sep (s.length + 1) s = _
  rw [show splitStep sep (s.length + 1) s
      = [] :: splitStep sep s.length (s.drop sep.length) by
    simp [splitStep, if_pos h]]
  unfold pySplit
  congr 1
  exact splitStep_fuel sep hsep (s.drop sep.length).length _ _ _ le_rfl
    (by rw [List.length_drop]; omega) (Nat.lt_succ_self _)

theorem pySplit_neg (sep : List Char) (c : Char) (s2 : List Char)
    (h : ¬ sep <+: (c :: s2)) :
    pySplit sep (c :: s2) = consHead c (pySplit sep s2) := by
  show splitStep sep (s2.length + 1 + 1) (c :: s2) = _
  simp [splitStep, if_neg h, pySplit]

theorem splitStep_ne_nil (sep : List Char) :
    ∀ (f : Nat) (s : List Char), splitStep sep f s ≠ [] := by
  intro f
  induction f with
  | zero => intro s; simp [splitStep]
  | succ f ih =>
    intro s
    by_cases hp : sep <+: s
    · simp [splitStep, if_pos hp]
    · match s with
      | [] => simp [splitStep, hp]
      | c :: s2 =>
        simp only [splitStep, if_neg hp]
        cases h : splitStep sep f s2 with
        | nil => simp [consHead]
        | cons a t => simp [consHead]

theorem pySplit_of_not_sub (sep : List Char) (hsep : sep ≠ []) :
    ∀ s : List Char, ¬ sep <:+: s → pySplit sep s = [s] := by
  intro s
  induction s with
  | nil => intro _; exact pySplit_nil sep hsep
  | cons c s2 ih =>
    intro h
    have hp : ¬ sep <+: (c :: s2) := fun hp => h hp.isInfix
    have h2 : ¬ sep <:+: s2 := fun hi => h (List.infix_cons hi)
    rw [pySplit_neg sep c s2 hp, ih h2]
    rfl

theorem pySplit_append (sep : List Char) (hsep : sep ≠ []) :
    ∀ (a b : List Char),
      (∀ j, j < a.length → ¬ sep <+: ((a ++ sep ++ b).drop j)) →
      pySplit sep (a ++ sep ++ b) = a :: pySplit sep b := by
  intro a
  induction a with
  | nil =>
    intro b _
    have hp : sep <+: sep ++ b := ⟨b, rfl⟩
    rw [List.nil_append, pySplit_pos sep _ hsep hp, List.drop_left]
  | cons c a2 ih =>
    intro b hno
    have h0 : ¬ sep <+: (c :: (a2 ++ sep ++ b)) := by
      have := hno 0 (by simp)
      simpa using this
    rw [show (c :: a2) ++ sep ++ b = c :: (a2 ++ sep ++ b) by simp]
    rw [pySplit_neg sep c _ h0]
    rw [ih b (fun j hj => by
      have := hno (j + 1) (by simp only [List.length_cons]; omega)
      simpa using this)]
    rfl

theorem occ_le_length (sep s : List Char) (hsep : sep ≠ []) (i : Nat)
    (h : sep <+: s.drop i) : i ≤ s.length := by
  by_contra hlt
  push_neg at hlt
  rw [List.drop_eq_nil_of_le (Nat.le_of_lt hlt)] at h
  exact hsep (List.prefix_nil.mp h)

theorem occCount_one (sep s : List Char) (hsep : sep ≠ []) (h : occCount sep s = 1) :
    ∃ i, sep <+: s.drop i ∧ ∀ j, sep <+: s.drop j → j = i := by
  obtain ⟨a, ha⟩ := List.length_eq_one.mp h
  refine ⟨a, ?_, ?_⟩
  · have hmem : a ∈ (List.range (s.length + 1)).filter
        (fun i => decide (sep <+: s.drop i)) := by
      rw [ha]; simp
    have := (List.mem_filter.mp hmem).2
    simpa using this
  · intro j hj
    have hjmem : j ∈ (List.range (s.length + 1)).filter
        (fun i => decide (sep <+: s.drop i)) :=
      List.mem_filter.mpr
        ⟨List.mem_range.mpr (Nat.lt_succ_of_le (occ_le_length sep s hsep j hj)),
         by simpa using hj⟩
    rw [ha] at hjmem
    simpa using hjmem

theorem pySplit_pair (sep a b : List Char) (hsep : sep ≠ [])
    (h : occCount sep (a ++ sep ++ b) = 1) :
    pySplit sep (a ++ sep ++ b) = [a, b] := by
  obtain ⟨i, hi, huniq⟩ := occCount_one sep _ hsep h
  have hsep1 : 1 ≤ sep.length := by
    cases sep with
    | nil => exact absurd rfl hsep
    | cons x t => simp
  have hdropa : (a ++ sep ++ b).drop a.length = sep ++ b := by
    rw [List.append_assoc, List.drop_left]
  have hpa : sep <+: (a ++ sep ++ b).drop a.length := by
    rw [hdropa]; exact ⟨b, rfl⟩
  have hieq : a.length = i := huniq a.length hpa
  have hno : ∀ j, j < a.length → ¬ sep <+: ((a ++ sep ++ b).drop j) := by
    intro j hj hpre
    have := huniq j hpre
    omega
  rw [pySplit_append sep hsep a b hno]
  have hnb : ¬ sep <:+: b := by
    rintro ⟨u, v, huv⟩
    have hpb : sep <+: (a ++ sep ++ b).drop (a.length + (sep.length + u.length)) := by
      rw [← List.drop_drop, hdropa, ← List.drop_drop, List.drop_left]
      rw [← huv, List.append_assoc, List.drop_left]
      exact ⟨v, rfl⟩
    have := huniq _ hpb
    omega
  rw [pySplit_of_not_sub sep hsep b hnb]

theorem drop_four (x : List Char) : (markerA ++ x).drop 4 = x := by
  have h : markerA.length = 4 := rfl
  rw [← h, List.drop_left]

theorem parse_two_way (desc : List Char) (hne : ¬ sepOrC <:+: desc) :
    starting_equipment_options desc
      = some (finishChoices desc (pySplit sepOrB (desc.drop 4))) := by
  unfold starting_equipment_options
  rw [if_neg hne]

theorem parse_pattern_c (desc : List Char) (h1 : ¬ sepOrC <:+: desc)
    (h2 : ¬ sepOrB <:+: desc.drop 4) :
    starting_equipment_options desc = some [pyTitle desc] := by
  rw [parse_two_way desc h1, pySplit_of_not_sub sepOrB (by decide) _ h2]
  unfold finishChoices
  rw [if_pos (by simp)]

theorem parse_pattern_b (o1 o2 : List Char)
    (hA : ¬ sepOrC <:+: (markerA ++ (o1 ++ sepOrB ++ o2)))
    (hocc : occCount sepOrB (o1 ++ sepOrB ++ o2) = 1) :
    starting_equipment_options (markerA ++ (o1 ++ sepOrB ++ o2))
      = some [ifProfStrip o1, ifProfStrip o2] := by
  rw [parse_two_way _ hA, drop_four, pySplit_pair sepOrB o1 o2 (by decide) hocc]
  unfold finishChoices
  rw [if_neg (by simp)]
  rfl

theorem parse_pattern_a (o1 o2 o3 : List Char)
    (h1 : occCount sepCommaB (o1 ++ sepCommaB ++ (o2 ++ sepCommaOrC ++ o3)) = 1)
    (h2 : occCount sepCommaOrC (o2 ++ sepCommaOrC ++ o3) = 1) :
    starting_equipment_options (markerA ++ (o1 ++ sepCommaB ++ (o2 ++ sepCommaOrC ++ o3)))
      = some [ifProfStrip o1, ifProfStrip o2, ifProfStrip o3] := by
  have hOrC : sepOrC <:+: (markerA ++ (o1 ++ sepCommaB ++ (o2 ++ sepCommaOrC ++ o3))) := by
    have hsub : sepOrC <:+: sepCommaOrC := by decide
    refine hsub.trans ⟨markerA ++ o1 ++ sepCommaB ++ o2, o3, ?_⟩
    simp [List.append_assoc]
  unfold starting_equipment_options
  rw [if_pos hOrC, drop_four, pySplit_pair sepCommaB o1 _ (by decide) h1]
  show some (finishChoices (markerA ++ (o1 ++ sepCommaB ++ (o2 ++ sepCommaOrC ++ o3)))
      (o1 :: pySplit sepCommaOrC (o2 ++ sepCommaOrC ++ o3))) = _
  rw [pySplit_pair sepCommaOrC o2 o3 (by decide) h2]
  unfold finishChoices
  rw [if_neg (by simp)]
  rfl

theorem ifProfStrip_of_wf (o : List Char) (h : WfOpt o) :
    ifProfStrip o ≠ [] ∧ noMarker (ifProfStrip o) ∧ ¬ ifProf <:+ ifProfStrip o := by
  obtain ⟨u, hu, hm, hni, hcase⟩ := h
  have hstrip : ifProfStrip o = u := by
    cases hcase with
    | inl he =>
      subst he
      unfold ifProfStrip
      rw [if_neg hni]
    | inr he =>
      subst he
      unfold ifProfStrip
      rw [if_pos ⟨u, [], by simp⟩]
      rw [List.length_append, show ifProf.length = 15 from rfl, Nat.add_sub_cancel]
      exact List.take_left u ifProf
  rw [hstrip]
  exact ⟨hu, hm, fun hs => hni hs.isInfix⟩

theorem ifProfStrip_pos (o : List Char) (h : ifProf <:+: o) :
    ifProfStrip o = o.take (o.length - 15) := by
  unfold ifProfStrip
  rw [if_pos h]

theorem ifProfStrip_neg (o : List Char) (h : ¬ ifProf <:+: o) : ifProfStrip o = o := by
  unfold ifProfStrip
  rw [if_neg h]

theorem pyTitle_ne_nil (desc : List Char) (h : desc ≠ []) : pyTitle desc ≠ [] := by
  cases desc with
  | nil => exact absurd rfl h
  | cons c rest =>
    simp only [pyTitle, pyTitleGo]
    split <;> simp

/-- C10: on a description that contains `" or (c)"` but not `", (b) "`, the
three-way branch reads index 1 of a one-piece split, an out-of-bounds access,
so the parse does not complete normally. -/
theorem c10_index_out_of_bounds (desc : List Char)
    (h1 : sepOrC <:+: desc) (h2 : ¬ sepCommaB <:+: desc) :
    starting_equipment_options desc = none := by
  have h2' : ¬ sepCommaB <:+: desc.drop 4 :=
    fun hi => h2 (hi.trans (List.drop_suffix 4 desc).isInfix)
  unfold starting_equipment_options
  rw [if_pos h1, pySplit_of_not_sub sepCommaB (by decide) _ h2']

/-- Witness for C10 at a concrete description. -/
theorem c10_index_out_of_bounds_witness :
    starting_equipment_options (("(a) a rapier or (c) a longsword").toList) = none :=
  c10_index_out_of_bounds (("(a) a rapier or (c) a longsword").toList)
    (by decide) (by decide)

/-- Counterexample for C8: a description containing `", (b) "` with no
`" or (c)"` after it and no `" or (b) "` — only an `" or (c)"` before the
`", (b) "` — is still dispatched to the three-way branch by the
anywhere-containment test of line 160 and parses to two options, not to a
single Pattern C option. -/
theorem c8_counterexample :
    sepCommaB <:+: (("(a) x or (c) y, (b) z").toList) ∧
      ¬ sepOrB <:+: (("(a) x or (c) y, (b) z").toList) ∧
      ("(a) x or (c) y, (b) z").toList
        = ("(a) x or (c) y").toList ++ (", (b) z").toList ∧
      ¬ sepOrC <:+: ((", (b) z").toList) ∧
      starting_equipment_options (("(a) x or (c) y, (b) z").toList)
        = some [("x or (c) y").toList, ("z").toList] ∧
      starting_equipment_options (("(a) x or (c) y, (b) z").toList)
        ≠ some [pyTitle (("(a) x or (c) y, (b) z").toList)] := by
  decide

/-- C8 (amended): a description containing `", (b) "` but containing
`" or (c)"` nowhere at all — not merely not after the `", (b) "` — and no
`" or (b) "` is not treated as three-way: the two-way split finds no
separator, the whole marker-stripped string stays a single piece, and the
description is handled as a single Pattern C option.  (Line 160 tests
`" or (c)"` anywhere in the description, so an occurrence even before the
`", (b) "` dispatches to the three-way branch instead.) -/
theorem c8_fall_through (desc : List Char) (_hb : sepCommaB <:+: desc)
    (h1 : ¬ sepOrC <:+: desc) (h2 : ¬ sepOrB <:+: desc) :
    pySplit sepOrB (desc.drop 4) = [desc.drop 4] ∧
      starting_equipment_options desc = some [pyTitle desc] := by
  have h2' : ¬ sepOrB <:+: desc.drop 4 :=
    fun hi => h2 (hi.trans (List.drop_suffix 4 desc).isInfix)
  exact ⟨pySplit_of_not_sub sepOrB (by decide) _ h2', parse_pattern_c desc h1 h2'⟩

/-- Witness for C8 at a concrete description. -/
theorem c8_fall_through_witness :
    pySplit sepOrB ((("(a) two daggers, (b) a mace").toList).drop 4)
        = [(("(a) two daggers, (b) a mace").toList).drop 4] ∧
      starting_equipment_options (("(a) two daggers, (b) a mace").toList)
        = some [pyTitle (("(a) two daggers, (b) a mace").toList)] :=
  c8_fall_through (("(a) two daggers, (b) a mace").toList)
    (by decide) (by decide) (by decide)

/-- C7: a description of Pattern A shape parses to exactly 3 options, one of
Pattern B shape to exactly 2, and one with no separators (Pattern C) to
exactly 1.  A shape matches a pattern when its separators occur exactly once
at the pattern positions. -/
theorem c7_pattern_counts :
    (∀ o1 o2 o3 : List Char,
        occCount sepCommaB (o1 ++ sepCommaB ++ (o2 ++ sepCommaOrC ++ o3)) = 1 →
        occCount sepCommaOrC (o2 ++ sepCommaOrC ++ o3) = 1 →
        ∃ l, starting_equipment_options
            (markerA ++ (o1 ++ sepCommaB ++ (o2 ++ sepCommaOrC ++ o3))) = some l ∧
          l.length = 3)
    ∧ (∀ o1 o2 : List Char,
        ¬ sepOrC <:+: (markerA ++ (o1 ++ sepOrB ++ o2)) →
        occCount sepOrB (o1 ++ sepOrB ++ o2) = 1 →
        ∃ l, starting_equipment_options (markerA ++ (o1 ++ sepOrB ++ o2)) = some l ∧
          l.length = 2)
    ∧ (∀ desc : List Char, ¬ sepOrC <:+: desc → ¬ sepOrB <:+: desc.drop 4 →
        ∃ l, starting_equipment_options desc = some l ∧ l.length = 1) := by
  refine ⟨?_, ?_, ?_⟩
  · intro o1 o2 o3 h1 h2
    exact ⟨_, parse_pattern_a o1 o2 o3 h1 h2, rfl⟩
  · intro o1 o2 hA hocc
    exact ⟨_, parse_pattern_b o1 o2 hA hocc, rfl⟩
  · intro desc h1 h2
    exact ⟨_, parse_pattern_c desc h1 h2, rfl⟩

/-- Witness for C7: the three pattern shapes at concrete descriptions. -/
theorem c7_pattern_counts_witness :
    (∃ l, starting_equipment_options
        (("(a) two daggers, (b) a martial weapon, or (c) a light crossbow and 20 bolts").toList)
        = some l ∧ l.length = 3)
    ∧ (∃ l, starting_equipment_options (("(a) a shield or (b) a simple weapon").toList)
        = some l ∧ l.length = 2)
    ∧ (∃ l, starting_equipment_options (("(a) leather armor").toList)
        = some l ∧ l.length = 1) := by
  refine ⟨?_, ?_, ?_⟩
  · have h := c7_pattern_counts.1 (("two daggers").toList) (("a martial weapon").toList)
      (("a light crossbow and 20 bolts").toList) (by decide) (by decide)
    have heq : markerA ++ ((("two daggers").toList) ++ sepCommaB
          ++ ((("a martial weapon").toList) ++ sepCommaOrC
          ++ (("a light crossbow and 20 bolts").toList)))
        = ("(a) two daggers, (b) a martial weapon, or (c) a light crossbow and 20 bolts").toList := by
      decide
    rwa [heq] at h
  · have h := c7_pattern_counts.2.1 (("a shield").toList) (("a simple weapon").toList)
      (by decide) (by decide)
    have heq : markerA ++ ((("a shield").toList) ++ sepOrB ++ (("a simple weapon").toList))
        = ("(a) a shield or (b) a simple weapon").toList := by
      decide
    rwa [heq] at h
  · exact c7_pattern_counts.2.2 (("(a) leather armor").toList) (by decide) (by decide)

/-- Counterexample for C1: on the empty description the code does not fail
with any InvalidDescriptionFormat condition — it completes and returns a
one-element option list whose single option is the empty string. -/
theorem c1_counterexample :
    starting_equipment_options [] = some [[]] ∧
      starting_equipment_options [] ≠ none := by
  decide

/-- C1 (amended): the code never validates the leading marker; it drops the
first four characters unconditionally, so the empty description yields the
single-option list containing the empty string and an unmarked description
such as "sword" yields the garbled single-option list containing "Sword". -/
theorem c1_no_validation :
    starting_equipment_options [] = some [[]] ∧
      starting_equipment_options (("sword").toList) = some [("Sword").toList] := by
  decide

/-- Counterexample for C2: the empty description produces an option list
containing an empty option string. -/
theorem c2_counterexample :
    ∃ l, starting_equipment_options [] = some l ∧ ([] : List Char) ∈ l :=
  ⟨[[]], by decide, by decide⟩

/-- C2 (amended): for well-formed Pattern A and Pattern B descriptions —
options non-empty, marker-free, carrying `"(if proficient)"` at most once
and only as a trailing annotation, separators occurring exactly once — every
returned option is non-empty, retains no leading `"(a) "`/`"(b) "`/`"(c) "`
marker and no trailing `"(if proficient)"`; on the Pattern C path the single
returned option is the title-cased full description, non-empty whenever the
description is. -/
theorem c2_clean_options :
    (∀ o1 o2 o3 : List Char,
        occCount sepCommaB (o1 ++ sepCommaB ++ (o2 ++ sepCommaOrC ++ o3)) = 1 →
        occCount sepCommaOrC (o2 ++ sepCommaOrC ++ o3) = 1 →
        WfOpt o1 → WfOpt o2 → WfOpt o3 →
        ∃ l, starting_equipment_options
            (markerA ++ (o1 ++ sepCommaB ++ (o2 ++ sepCommaOrC ++ o3))) = some l ∧
          ∀ r ∈ l, r ≠ [] ∧ noMarker r ∧ ¬ ifProf <:+ r)
    ∧ (∀ o1 o2 : List Char,
        ¬ sepOrC <:+: (markerA ++ (o1 ++ sepOrB ++ o2)) →
        occCount sepOrB (o1 ++ sepOrB ++ o2) = 1 →
        WfOpt o1 → WfOpt o2 →
        ∃ l, starting_equipment_options (markerA ++ (o1 ++ sepOrB ++ o2)) = some l ∧
          ∀ r ∈ l, r ≠ [] ∧ noMarker r ∧ ¬ ifProf <:+ r)
    ∧ (∀ desc : List Char, desc ≠ [] →
        ¬ sepOrC <:+: desc → ¬ sepOrB <:+: desc.drop 4 →
        starting_equipment_options desc = some [pyTitle desc] ∧ pyTitle desc ≠ []) := by
  refine ⟨?_, ?_, ?_⟩
  · intro o1 o2 o3 h1 h2 hw1 hw2 hw3
    refine ⟨_, parse_pattern_a o1 o2 o3 h1 h2, ?_⟩
    intro r hr
    simp only [List.mem_cons, List.mem_singleton, List.not_mem_nil] at hr
    rcases hr with h | h | h | h
    · exact h ▸ ifProfStrip_of_wf o1 hw1
    · exact h ▸ ifProfStrip_of_wf o2 hw2
    · exact h ▸ ifProfStrip_of_wf o3 hw3
    · exact h.elim
  · intro o1 o2 hA hocc hw1 hw2
    refine ⟨_, parse_pattern_b o1 o2 hA hocc, ?_⟩
    intro r hr
    simp only [List.mem_cons, List.mem_singleton, List.not_mem_nil] at hr
    rcases hr with h | h | h
    · exact h ▸ ifProfStrip_of_wf o1 hw1
    · exact h ▸ ifProfStrip_of_wf o2 hw2
    · exact h.elim
  · intro desc hne h1 h2
    exact ⟨parse_pattern_c desc h1 h2, pyTitle_ne_nil desc hne⟩

/-- Witness for C2 (amended) at a Pattern B description whose first option
carries the conditional annotation. -/
theorem c2_clean_options_witness :
    ∃ l, starting_equipment_options
        (("(a) a longsword (if proficient) or (b) a shortbow").toList) = some l ∧
      ∀ r ∈ l, r ≠ [] ∧ noMarker r ∧ ¬ ifProf <:+ r := by
  have h := c2_clean_options.2.1 (("a longsword (if proficient)").toList)
    (("a shortbow").toList) (by decide) (by decide)
    ⟨("a longsword ").toList, by decide, ⟨by decide, by decide, by decide⟩,
      by decide, Or.inr (by decide)⟩
    ⟨("a shortbow").toList, by decide, ⟨by decide, by decide, by decide⟩,
      by decide, Or.inl rfl⟩
  have heq : markerA ++ ((("a longsword (if proficient)").toList) ++ sepOrB
        ++ (("a shortbow").toList))
      = ("(a) a longsword (if proficient) or (b) a shortbow").toList := by
    decide
  rwa [heq] at h

/-- Counterexample for C3: an option that contains `"(if proficient)"` but
does not end with it is still truncated by 15 characters, not left
unchanged. -/
theorem c3_counterexample :
    ifProf <:+: (("x (if proficient) yz").toList) ∧
      ¬ ifProf <:+ (("x (if proficient) yz").toList) ∧
      starting_equipment_options (("(a) x (if proficient) yz or (b) w").toList)
        = some [("x (if").toList, ("w").toList] ∧
      ("x (if").toList ≠ ("x (if proficient) yz").toList := by
  decide

/-- C3 (amended): in every multi-option result — the three-option Pattern A
path as well as the two-option Pattern B path — an option loses its final 15
characters if and only if it contains the literal `"(if proficient)"`
anywhere (a containment test, not a suffix test); an option free of the
literal is left unchanged. -/
theorem c3_strip_on_contains :
    (∀ o1 o2 o3 : List Char,
        occCount sepCommaB (o1 ++ sepCommaB ++ (o2 ++ sepCommaOrC ++ o3)) = 1 →
        occCount sepCommaOrC (o2 ++ sepCommaOrC ++ o3) = 1 →
        ∃ r1 r2 r3, starting_equipment_options
            (markerA ++ (o1 ++ sepCommaB ++ (o2 ++ sepCommaOrC ++ o3)))
              = some [r1, r2, r3] ∧
          stripSpec o1 r1 ∧ stripSpec o2 r2 ∧ stripSpec o3 r3)
    ∧ (∀ o1 o2 : List Char,
        ¬ sepOrC <:+: (markerA ++ (o1 ++ sepOrB ++ o2)) →
        occCount sepOrB (o1 ++ sepOrB ++ o2) = 1 →
        ∃ r1 r2, starting_equipment_options (markerA ++ (o1 ++ sepOrB ++ o2))
            = some [r1, r2] ∧
          stripSpec o1 r1 ∧ stripSpec o2 r2) := by
  constructor
  · intro o1 o2 o3 h1 h2
    exact ⟨ifProfStrip o1, ifProfStrip o2, ifProfStrip o3,
      parse_pattern_a o1 o2 o3 h1 h2,
      ⟨fun h => ifProfStrip_pos o1 h, fun h => ifProfStrip_neg o1 h⟩,
      ⟨fun h => ifProfStrip_pos o2 h, fun h => ifProfStrip_neg o2 h⟩,
      ⟨fun h => ifProfStrip_pos o3 h, fun h => ifProfStrip_neg o3 h⟩⟩
  · intro o1 o2 hA hocc
    exact ⟨ifProfStrip o1, ifProfStrip o2, parse_pattern_b o1 o2 hA hocc,
      ⟨fun h => ifProfStrip_pos o1 h, fun h => ifProfStrip_neg o1 h⟩,
      ⟨fun h => ifProfStrip_pos o2 h, fun h => ifProfStrip_neg o2 h⟩⟩

/-- Witness for C3 (amended): a three-option description whose second option
carries the annotation, and the two-option longsword description. -/
theorem c3_strip_on_contains_witness :
    (∃ r1 r2 r3, starting_equipment_options
        (markerA ++ ((("two daggers").toList) ++ sepCommaB
          ++ ((("a martial weapon (if proficient)").toList) ++ sepCommaOrC
          ++ (("a light crossbow").toList)))) = some [r1, r2, r3] ∧
      stripSpec (("two daggers").toList) r1 ∧
      stripSpec (("a martial weapon (if proficient)").toList) r2 ∧
      stripSpec (("a light crossbow").toList) r3)
    ∧ (∃ r1 r2, starting_equipment_options
        (markerA ++ ((("a longsword (if proficient)").toList) ++ sepOrB
          ++ (("a shortbow").toList))) = some [r1, r2] ∧
      stripSpec (("a longsword (if proficient)").toList) r1 ∧
      stripSpec (("a shortbow").toList) r2) :=
  ⟨c3_strip_on_contains.1 (("two daggers").toList)
      (("a martial weapon (if proficient)").toList) (("a light crossbow").toList)
      (by decide) (by decide),
    c3_strip_on_contains.2 (("a longsword (if proficient)").toList)
      (("a shortbow").toList) (by decide) (by decide)⟩

/-- Counterexample for C4: the first option keeps a trailing space after the
15-character truncation, so the result is not `["a longsword", "a shortbow"]`. -/
theorem c4_counterexample :
    starting_equipment_options (("(a) a longsword (if proficient) or (b) a shortbow").toList)
        ≠ some [("a longsword").toList, ("a shortbow").toList] ∧
      starting_equipment_options (("(a) a longsword (if proficient) or (b) a shortbow").toList)
        = some [("a longsword ").toList, ("a shortbow").toList] := by
  decide

/-- C4 (amended): parsing `"(a) a longsword (if proficient) or (b) a shortbow"`
returns `["a longsword ", "a shortbow"]` — the conditional suffix is stripped
from the first option only, leaving its trailing space in place. -/
theorem c4_trailing_space :
    starting_equipment_options (("(a) a longsword (if proficient) or (b) a shortbow").toList)
      = some [("a longsword ").toList, ("a shortbow").toList] := by
  decide

/-- C5: the three-way example parses to its three options in source order. -/
theorem c5_three_options :
    starting_equipment_options
        (("(a) two daggers, (b) a martial weapon, or (c) a light crossbow and 20 bolts").toList)
      = some [("two daggers").toList, ("a martial weapon").toList,
          ("a light crossbow and 20 bolts").toList] := by
  decide

/-- C6: the two-way example parses to its two options in source order. -/
theorem c6_two_options :
    starting_equipment_options (("(a) a shield or (b) a simple weapon").toList)
      = some [("a shield").toList, ("a simple weapon").toList] := by
  decide

/-- C9: the loop body is deterministic and effect-free beyond its own
appends — from any two prior states, processing the same description leaves
the prior state intact as a prefix and appends the identical contribution to
the equipment list and to the offered option lists. -/
theorem c9_state_independence (st₁ st₂ st₁' st₂' : EquipState) (d : List Char)
    (h₁ : stepItem st₁ d = some st₁') (h₂ : stepItem st₂ d = some st₂') :
    (st₁.equipmentList <+: st₁'.equipmentList ∧ st₁.choiceLists <+: st₁'.choiceLists) ∧
      st₁'.equipmentList.drop st₁.equipmentList.length
        = st₂'.equipmentList.drop st₂.equipmentList.length ∧
      st₁'.choiceLists.drop st₁.choiceLists.length
        = st₂'.choiceLists.drop st₂.choiceLists.length := by
  unfold stepItem at h₁ h₂
  cases hp : starting_equipment_options d with
  | none => rw [hp] at h₁; exact absurd h₁ (by simp)
  | some opts =>
    rw [hp] at h₁ h₂
    have g₁ : (if opts.length = 1 then
          some { st₁ with equipmentList := st₁.equipmentList ++ opts }
        else some { st₁ with choiceLists := st₁.choiceLists ++ [opts] }) = some st₁' := h₁
    have g₂ : (if opts.length = 1 then
          some { st₂ with equipmentList := st₂.equipmentList ++ opts }
        else some { st₂ with choiceLists := st₂.choiceLists ++ [opts] }) = some st₂' := h₂
    by_cases hl : opts.length = 1
    · rw [if_pos hl] at g₁ g₂
      have e₁ := Option.some.inj g₁
      have e₂ := Option.some.inj g₂
      subst e₁
      subst e₂
      refine ⟨⟨⟨opts, rfl⟩, ⟨[], List.append_nil _⟩⟩, ?_, ?_⟩
      · simp [List.drop_left]
      · simp [List.drop_length]
    · rw [if_neg hl] at g₁ g₂
      have e₁ := Option.some.inj g₁
      have e₂ := Option.some.inj g₂
      subst e₁
      subst e₂
      refine ⟨⟨⟨[], List.append_nil _⟩, ⟨[opts], rfl⟩⟩, ?_, ?_⟩
      · simp [List.drop_length]
      · simp [List.drop_left]

/-- Witness for C9: the same description processed from the empty state and
from a non-empty state appends the same option list and keeps the prior
state as a prefix. -/
theorem c9_state_independence_witness :
    ((⟨[], []⟩ : EquipState).equipmentList
        <+: (⟨[], [[("a shield").toList, ("a simple weapon").toList]]⟩ : EquipState).equipmentList ∧
      (⟨[], []⟩ : EquipState).choiceLists
        <+: (⟨[], [[("a shield").toList, ("a simple weapon").toList]]⟩ : EquipState).choiceLists) ∧
      (⟨[], [[("a shield").toList, ("a simple weapon").toList]]⟩ : EquipState).equipmentList.drop
          (⟨[], []⟩ : EquipState).equipmentList.length
        = (⟨[("chain mail").toList], [[("a shield").toList, ("a simple weapon").toList]]⟩ : EquipState).equipmentList.drop
          (⟨[("chain mail").toList], []⟩ : EquipState).equipmentList.length ∧
      (⟨[], [[("a shield").toList, ("a simple weapon").toList]]⟩ : EquipState).choiceLists.drop
          (⟨[], []⟩ : EquipState).choiceLists.length
        = (⟨[("chain mail").toList], [[("a shield").toList, ("a simple weapon").toList]]⟩ : EquipState).choiceLists.drop
          (⟨[("chain mail").toList], []⟩ : EquipState).choiceLists.length :=
  c9_state_independence ⟨[], []⟩ ⟨[("chain mail").toList], []⟩
    ⟨[], [[("a shield").toList, ("a simple weapon").toList]]⟩
    ⟨[("chain mail").toList], [[("a shield").toList, ("a simple weapon").toList]]⟩
    (("(a) a shield or (b) a simple weapon").toList) (by decide) (by decide)
